import Mathlib

/-!
Formal model of the configuration core of the sfcc-site-exporter CLI.

The JavaScript source operates on JSON-like values (booleans, strings,
numbers, null, objects).  We embed these as the inductive type `JVal`; an
object is its list of own enumerable entries in insertion order (JS objects
never hold duplicate keys, and every operation below builds objects by
iterating an existing object's entries, so assignment is modelled as append).

Functions modelled from `src/lib/interactive.js` (the config module):
`validateConfig`, `generateArchiveName`, `filterEnabledDataUnits`, the
catalogs `globalDataOptions` / `siteDataOptions`.
Functions modelled from `src/index.js` (the exporter module):
`buildExportArgs` and the failure-classification branch of
`executeSiteExport`.
-/

/-- A JSON-like JavaScript value.  `obj` carries the entry list in insertion
order.  Arrays and functions are not needed by any modelled code path. -/
inductive JVal where
  | bool (b : Bool)
  | str (s : String)
  | num (n : Int)
  | null
  | obj (entries : List (String × JVal))

/-- JS truthiness (`if (v)`): false, "", 0, null (and undefined, modelled as
`Option.none` at use sites) are falsy; every object is truthy. -/
def jsTruthy : JVal → Bool
  | .bool b => b
  | .str s => !(s == "")
  | .num n => !(n == 0)
  | .null => false
  | .obj _ => true

/-- Truthiness of a possibly-undefined value (`undefined` is falsy). -/
def jsTruthyOpt : Option JVal → Bool
  | none => false
  | some v => jsTruthy v

/-- JS property access `v.k`: defined only on objects for the (non-index)
property names the source reads; on every other value those names are
`undefined`. -/
def jsGet : JVal → String → Option JVal
  | .obj es, k => (es.find? (fun p => p.1 == k)).map (·.2)
  | _, _ => none

/-- `Object.keys(v)`: an object's own keys in insertion order; a string's
character indices as decimal strings; `[]` for booleans and numbers.
(`Object.keys(null)` throws in JS, but every call site guards with a
truthiness test, so the value returned here for `null` is never observed.) -/
def jsKeys : JVal → List String
  | .obj es => es.map (·.1)
  | .str s => (List.range s.length).map (fun i => toString i)
  | _ => []

/-- `Object.entries(v)` under the same conventions as `jsKeys`. -/
def jsEntries : JVal → List (String × JVal)
  | .obj es => es
  | .str s => s.data.enum.map (fun p => (toString p.1, JVal.str (String.singleton p.2)))
  | _ => []

/-- `Object.values(v)`. -/
def jsValues (v : JVal) : List JVal :=
  (jsEntries v).map (·.2)

/-!
`filterEnabledDataUnits` (src/lib/interactive.js lines 594-630).

The JS function loops over the entries of its argument; a boolean entry is
kept iff `true`; an object entry is filtered by an inner loop (which keeps
nested `true` booleans and recursively filters nested objects, keeping them
iff non-empty) and kept iff the inner loop enabled at least one key — which
is exactly `filteredNested` being non-empty.  Values of any other type
(strings, numbers, null) are dropped by both loops.
-/

mutual

def filterEnabledDataUnits : List (String × JVal) → List (String × JVal)
  | [] => []
  | (key, value) :: rest =>
    match value with
    | JVal.bool b =>
      (if b then [(key, JVal.bool b)] else []) ++ filterEnabledDataUnits rest
    | JVal.obj nested =>
      let filteredNested := filterNestedEntries nested
      (if filteredNested.length > 0 then [(key, JVal.obj filteredNested)] else [])
        ++ filterEnabledDataUnits rest
    | _ => filterEnabledDataUnits rest
  termination_by es => sizeOf es

def filterNestedEntries : List (String × JVal) → List (String × JVal)
  | [] => []
  | (nestedKey, nestedValue) :: rest =>
    match nestedValue with
    | JVal.bool b =>
      (if b then [(nestedKey, JVal.bool b)] else []) ++ filterNestedEntries rest
    | JVal.obj site =>
      let filteredSite := filterEnabledDataUnits site
      (if filteredSite.length > 0 then [(nestedKey, JVal.obj filteredSite)] else [])
        ++ filterNestedEntries rest
    | _ => filterNestedEntries rest
  termination_by es => sizeOf es

end

/-- Whether a boolean `true` leaf occurs anywhere in an entry tree (the
spec's notion used to state the emptiness property of the filter). -/
def hasTrueLeafEntries : List (String × JVal) → Bool
  | [] => false
  | (_, JVal.bool b) :: rest => b || hasTrueLeafEntries rest
  | (_, JVal.obj nested) :: rest => hasTrueLeafEntries nested || hasTrueLeafEntries rest
  | _ :: rest => hasTrueLeafEntries rest
  termination_by es => sizeOf es

/-!
`generateArchiveName` (src/lib/interactive.js lines 573-586).

JS `String.prototype.replace` with a string pattern replaces only the first
occurrence, after running the replacement string through the GetSubstitution
algorithm of ECMA-262: for a string pattern there are no capture groups, so
the active escapes are exactly the dollar-dollar (a literal dollar),
dollar-ampersand (the matched text, i.e. the pattern itself),
dollar-backtick (the text before the match) and dollar-apostrophe (the text
after the match); a dollar followed by anything else — including the
digit and angle-bracket forms, which require capture groups — stays
literal.  We model this over character lists.
The `date`, `time` and `timestamp` parameters stand for the three values the
source derives from `new Date()` at call time; `context.site || "all"` is JS
truthiness on the optional site string.
-/

/-- Whether `pat` occurs as a contiguous substring (JS `String.includes`). -/
def occursIn (pat : List Char) : List Char → Bool
  | [] => pat.isEmpty
  | c :: cs => pat.isPrefixOf (c :: cs) || occursIn pat cs

/-- JS `s.includes(pat)`. -/
def jsIncludes (s pat : String) : Bool :=
  occursIn pat.data s.data

/-- ECMA-262 GetSubstitution for a string pattern (no capture groups):
`matched` is the matched text, `before` the part of the subject preceding
the match, `after` the part following it.  `Char.ofNat 96` is the backtick
and `Char.ofNat 39` the apostrophe. -/
def getSubstitution (matched before after : List Char) : List Char → List Char
  | [] => []
  | c :: rest =>
    if c == Char.ofNat 36 then
      match rest with
      | [] => [c]
      | c2 :: rest2 =>
        if c2 == Char.ofNat 36 then c :: getSubstitution matched before after rest2
        else if c2 == Char.ofNat 38 then matched ++ getSubstitution matched before after rest2
        else if c2 == Char.ofNat 96 then before ++ getSubstitution matched before after rest2
        else if c2 == Char.ofNat 39 then after ++ getSubstitution matched before after rest2
        else c :: getSubstitution matched before after (c2 :: rest2)
    else c :: getSubstitution matched before after rest

/-- Scan for the first occurrence of `pat` (non-empty at every call site);
`before` accumulates the already-scanned characters in reverse.  On a match
the GetSubstitution of the replacement is emitted, then the remainder of
the subject; no further occurrence is touched. -/
def replaceFirstAux (pat rep : List Char) : List Char → List Char → List Char
  | _, [] => []
  | before, c :: cs =>
    if pat.isPrefixOf (c :: cs) then
      getSubstitution pat before.reverse ((c :: cs).drop pat.length) rep
        ++ (c :: cs).drop pat.length
    else c :: replaceFirstAux pat rep (c :: before) cs

/-- JS `s.replace(pat, rep)` for string patterns: first occurrence only,
with GetSubstitution applied to the replacement. -/
def replaceFirst (s pat rep : String) : String :=
  String.mk (replaceFirstAux pat.data rep.data [] s.data)

def generateArchiveName (date time : String) (timestamp : Nat)
    (template : String) (site : Option String) : String :=
  replaceFirst
    (replaceFirst
      (replaceFirst
        (replaceFirst template "{date}" date)
        "{time}" time)
      "{timestamp}" (toString timestamp))
    "{site}"
    (match site with
     | some s => if s != "" then s else "all"
     | none => "all")

/-!
`validateConfig` (src/lib/interactive.js lines 504-565) and the data-unit
catalogs (same file, the config module's `globalDataOptions` and
`siteDataOptions` lists).  The function accumulates error strings into a
list and throws a single joined message iff the list is non-empty; we model
the throw as `Except.error`.
-/

def validDataUnitKeys : List String :=
  ["global_data", "sites", "customer_lists", "inventory_lists"]

def globalDataOptions : List String :=
  ["access_roles", "all", "csc_settings", "csrf_whitelists",
   "custom_preference_groups", "custom_quota_settings", "custom_types",
   "geolocations", "global_custom_objects", "job_schedules",
   "job_schedules_deprecated", "locales", "meta_data", "oauth_providers",
   "ocapi_settings", "page_meta_tags", "preferences",
   "price_adjustment_limits", "services", "sorting_rules",
   "static_resources", "system_type_definitions", "users",
   "webdav_client_permissions"]

def siteDataOptions : List String :=
  ["all", "ab_tests", "active_data_feeds", "cache_settings",
   "campaigns_and_promotions", "content", "coupons", "custom_objects",
   "customer_cdn_settings", "customer_groups",
   "distributed_commerce_extensions", "dynamic_file_resources",
   "gift_certificates", "ocapi_settings", "payment_methods",
   "payment_processors", "redirect_urls", "search_settings", "shipping",
   "site_descriptor", "site_preferences", "sitemap_settings", "slots",
   "sorting_rules", "source_codes", "static_dynamic_alias_mappings",
   "stores", "tax", "url_rules"]

def missingDataUnitsMsg : String :=
  "Configuration must have a \"dataUnits\" property"

def unknownDataUnitsKeyMsg (key : String) : String :=
  "Unknown dataUnits key: \"" ++ key ++ "\". Valid keys are: "
    ++ String.intercalate ", " validDataUnitKeys

def unknownGlobalDataMsg (key : String) : String :=
  "Unknown global_data option: \"" ++ key ++ "\""

def unknownSiteDataMsg (siteId key : String) : String :=
  "Unknown site data option for site \"" ++ siteId ++ "\": \"" ++ key ++ "\""

def invalidSiteConfigMsg (siteId : String) : String :=
  "Invalid site configuration for \"" ++ siteId ++ "\": must be boolean or object"

/-- Errors pushed for unrecognized top-level `dataUnits` keys. -/
def unknownDataUnitsKeyErrors (du : JVal) : List String :=
  ((jsKeys du).filter (fun k => !(validDataUnitKeys.contains k))).map
    unknownDataUnitsKeyMsg

/-- Errors pushed for unrecognized `global_data` keys (guarded by JS
truthiness of `config.dataUnits.global_data`). -/
def globalDataErrors (du : JVal) : List String :=
  match jsGet du "global_data" with
  | some gd =>
    if jsTruthy gd then
      ((jsKeys gd).filter (fun k => !(globalDataOptions.contains k))).map
        unknownGlobalDataMsg
    else []
  | none => []

/-- Errors pushed while validating one `(siteId, siteConfig)` entry: an
object's unknown keys are each reported; a boolean is accepted; any other
value (`typeof` neither object-non-null nor boolean) is a type error. -/
def siteEntryErrors (p : String × JVal) : List String :=
  match p.2 with
  | JVal.obj siteEntries =>
    ((siteEntries.map Prod.fst).filter (fun k => !(siteDataOptions.contains k))).map
      (unknownSiteDataMsg p.1)
  | JVal.bool _ => []
  | _ => [invalidSiteConfigMsg p.1]

/-- Errors pushed for the `sites` mapping (guarded by JS truthiness of
`config.dataUnits.sites`). -/
def sitesErrors (du : JVal) : List String :=
  match jsGet du "sites" with
  | some s => if jsTruthy s then (jsEntries s).flatMap siteEntryErrors else []
  | none => []

/-- The accumulated error list, in push order: top-level keys, then
`global_data` keys, then `sites` entries.  When `config.dataUnits` is absent
or falsy, only the missing-property error is pushed. -/
def validateConfigErrors (config : JVal) : List String :=
  match jsGet config "dataUnits" with
  | none => [missingDataUnitsMsg]
  | some du =>
    if jsTruthy du then
      unknownDataUnitsKeyErrors du ++ globalDataErrors du ++ sitesErrors du
    else [missingDataUnitsMsg]

def validateConfig (config : JVal) : Except String JVal :=
  let errors := validateConfigErrors config
  if errors.length > 0 then
    Except.error ("Configuration validation failed:\n"
      ++ String.intercalate "\n" (errors.map (fun e => "  - " ++ e)))
  else
    Except.ok config

/-- A sample configuration exhibiting one violation of each category. -/
def sampleInvalidDataUnits : List (String × JVal) :=
  [("bogus", JVal.bool true),
   ("global_data", JVal.obj [("nope", JVal.bool true)]),
   ("sites", JVal.obj [("S", JVal.str "x"),
                       ("T", JVal.obj [("weird", JVal.bool true)])])]

def sampleInvalidConfig : JVal :=
  JVal.obj [("dataUnits", JVal.obj sampleInvalidDataUnits)]

/-- A sample configuration with zero validation errors. -/
def sampleValidConfig : JVal :=
  JVal.obj [("dataUnits", JVal.obj
    [("global_data", JVal.obj [("meta_data", JVal.bool true)]),
     ("sites", JVal.obj [("RefArch", JVal.obj [("content", JVal.bool true)]),
                         ("SiteB", JVal.bool true)]),
     ("inventory_lists", JVal.obj [("inv1", JVal.bool true)])])]

/-!
`buildExportArgs` (src/index.js lines 376-446, exporter module).

The JS function receives the filtered data-units object and an options
object; it destructures `outputPath`, `keepArchive` and `timeout` (so any
`zipOnly` flag on the options object is never read) and pushes arguments in
source order.  `path.resolve` depends on the ambient working directory and
is modelled by the `resolve` parameter.  The sites loop tests
`typeof siteConfig === "object"` without a null guard; a `null` site value
would reach `Object.entries(null)` and throw, which the model reports as
`none`.  The `Set` of site data keys preserves insertion order and
deduplicates, modelled by `setAdd`.
-/

structure ExportOptions where
  outputPath : String := "./exports"
  keepArchive : Bool := false
  timeout : Nat := 600
  zipOnly : Bool := false

/-- `Set.prototype.add`: append unless already present. -/
def setAdd (s : List String) (k : String) : List String :=
  if s.contains k then s else s ++ [k]

/-- One step of the inner sites loop: `if (enabled === true) allSiteData.add(key)`. -/
def siteDataStep (acc : List String) (p : String × JVal) : List String :=
  match p.2 with
  | JVal.bool true => setAdd acc p.1
  | _ => acc

/-- The loop over `Object.values(dataUnits.sites)` collecting the enabled
site-data keys; `none` models the TypeError thrown on a `null` site value. -/
def collectSiteData : List JVal → List String → Option (List String)
  | [], acc => some acc
  | JVal.null :: _, _ => none
  | JVal.obj es :: rest, acc => collectSiteData rest (es.foldl siteDataStep acc)
  | _ :: rest, acc => collectSiteData rest acc

/-- The `--global-data` block (lines 402-409). -/
def globalDataArgs (dataUnits : JVal) : List String :=
  match jsGet dataUnits "global_data" with
  | some gd =>
    if jsTruthy gd ∧ (jsKeys gd).length > 0 then
      let enabledGlobalData :=
        ((jsEntries gd).filter
          (fun p => match p.2 with | JVal.bool true => true | _ => false)).map (·.1)
      if enabledGlobalData.length > 0 then
        ["--global-data", String.intercalate "," enabledGlobalData]
      else []
    else []
  | none => []

/-- The `--site` and `--site-data` block (lines 412-430). -/
def siteArgs (dataUnits : JVal) : Option (List String) :=
  match jsGet dataUnits "sites" with
  | some sites =>
    if jsTruthy sites ∧ (jsKeys sites).length > 0 then
      match collectSiteData (jsValues sites) [] with
      | some allSiteData =>
        some (["--site", String.intercalate "," (jsKeys sites)]
          ++ (if allSiteData.length > 0 then
                ["--site-data", String.intercalate "," allSiteData]
              else []))
      | none => none
    else some []
  | none => some []

/-- The `--inventory-list` block (lines 433-443). -/
def inventoryArgs (dataUnits : JVal) : List String :=
  match jsGet dataUnits "inventory_lists" with
  | some inv =>
    if jsTruthy inv ∧ (jsKeys inv).length > 0 then
      let inventoryIds :=
        ((jsEntries inv).filter
          (fun p => match p.2 with | JVal.bool true => true | _ => false)).map (·.1)
      if inventoryIds.length > 0 then
        ["--inventory-list", String.intercalate "," inventoryIds]
      else []
    else []
  | none => []

def buildExportArgs (resolve : String → String) (dataUnits : JVal)
    (exportOptions : ExportOptions) : Option (List String) :=
  let args := ["job", "export"]
  let args := args ++ ["--output", resolve exportOptions.outputPath]
  let args := args ++ ["--timeout", toString exportOptions.timeout]
  let args := if exportOptions.keepArchive then args ++ ["--keep-archive"] else args
  let args := args ++ ["--zip-only"]
  let args := args ++ globalDataArgs dataUnits
  match siteArgs dataUnits with
  | none => none
  | some sa => some (args ++ sa ++ inventoryArgs dataUnits)

/-!
Failure classification of `executeSiteExport` (src/index.js lines 492-531).

On a non-zero exit code the JS computes
`fullOutput = result.stdout || result.stderr || ""` — stdout when it is
non-empty, else stderr, else the empty string — then first tests it for the
literal substring `JobAlreadyRunningException` (the distinguished
job-already-running error) and otherwise scans the newline-split,
trim-nonempty lines as JSON log records for the first error message: a
record whose `level` is strictly the string "error" with a truthy `msg`
yields that msg; otherwise a truthy `error?.message` yields that message;
with no hit the message stays the default "Export failed".  `JSON.parse` is
the parameter `jsonParse`, returning `none` where JS would throw.
-/

inductive ExportFailure where
  | jobAlreadyRunning
  | exportError (msg : JVal)

/-- Whitespace for the JS `trim` used in the line filter. -/
def jsWhitespace (c : Char) : Bool :=
  c == ' ' || c == '\n' || c == '\t' || c == '\r'

/-- JS `String.prototype.trim`. -/
def jsTrim (s : String) : String :=
  String.mk (((s.data.dropWhile jsWhitespace).reverse.dropWhile jsWhitespace).reverse)

/-- JS `String.prototype.split` with a single-character separator. -/
def splitOnChar (c : Char) : List Char → List (List Char)
  | [] => [[]]
  | ch :: rest =>
    match splitOnChar c rest with
    | [] => [[]]
    | r :: rs => if ch == c then [] :: r :: rs else (ch :: r) :: rs

/-- The per-line scan loop: first JSON-parsable line with an error-level
msg or an error.message wins; parse failures continue the loop. -/
def scanLogLines (jsonParse : String → Option JVal) : List String → Option JVal
  | [] => none
  | line :: rest =>
    match jsonParse line with
    | none => scanLogLines jsonParse rest
    | some entry =>
      if (match jsGet entry "level" with
          | some (JVal.str s) => s == "error"
          | _ => false)
          && jsTruthyOpt (jsGet entry "msg") then
        jsGet entry "msg"
      else
        match jsGet entry "error" with
        | some err =>
          if jsTruthyOpt (jsGet err "message") then jsGet err "message"
          else scanLogLines jsonParse rest
        | none => scanLogLines jsonParse rest

/-- The error taken by the `result.code !== 0` branch of executeSiteExport. -/
def classifyFailure (jsonParse : String → Option JVal)
    (stdout stderr : String) : ExportFailure :=
  let fullOutput := if stdout != "" then stdout else if stderr != "" then stderr else ""
  if jsIncludes fullOutput "JobAlreadyRunningException" then
    ExportFailure.jobAlreadyRunning
  else
    let lines := ((splitOnChar '\n' fullOutput.data).map (fun l => String.mk l)).filter
      (fun l => jsTrim l != "")
    match scanLogLines jsonParse lines with
    | some m => ExportFailure.exportError m
    | none => ExportFailure.exportError (JVal.str "Export failed")

/-- The outcome of executeSiteExport's result handling: `some` failure when
the subprocess exit code is non-zero, `none` (success path) otherwise. -/
def exportResult (jsonParse : String → Option JVal) (code : Int)
    (stdout stderr : String) : Option ExportFailure :=
  if code != 0 then some (classifyFailure jsonParse stdout stderr) else none

theorem filterNestedEntries_eq_aux :
    ∀ (n : Nat) (es : List (String × JVal)), sizeOf es ≤ n →
      filterNestedEntries es = filterEnabledDataUnits es := by
  intro n
  induction n with
  | zero =>
    intro es h
    cases es with
    | nil => simp [filterNestedEntries, filterEnabledDataUnits]
    | cons p rest => simp at h
  | succ n ih =>
    intro es h
    cases es with
    | nil => simp [filterNestedEntries, filterEnabledDataUnits]
    | cons p rest =>
      obtain ⟨k, v⟩ := p
      have hrest : sizeOf rest ≤ n := by
        simp at h; omega
      cases v with
      | bool b =>
        simp only [filterNestedEntries, filterEnabledDataUnits]
        rw [ih rest hrest]
      | obj nested =>
        have hnested : sizeOf nested ≤ n := by
          simp at h; omega
        simp only [filterNestedEntries, filterEnabledDataUnits]
        rw [ih rest hrest, ih nested hnested]
      | str s =>
        simp only [filterNestedEntries, filterEnabledDataUnits]
        exact ih rest hrest
      | num m =>
        simp only [filterNestedEntries, filterEnabledDataUnits]
        exact ih rest hrest
      | null =>
        simp only [filterNestedEntries, filterEnabledDataUnits]
        exact ih rest hrest

/-- The inner loop of the filter behaves exactly like the filter itself. -/
theorem filterNestedEntries_eq (es : List (String × JVal)) :
    filterNestedEntries es = filterEnabledDataUnits es :=
  filterNestedEntries_eq_aux (sizeOf es) es (Nat.le_refl _)

theorem filterEnabledDataUnits_nil :
    filterEnabledDataUnits [] = [] := by
  simp [filterEnabledDataUnits]

theorem filterEnabledDataUnits_cons_bool (k : String) (b : Bool)
    (rest : List (String × JVal)) :
    filterEnabledDataUnits ((k, JVal.bool b) :: rest) =
      (if b then [(k, JVal.bool b)] else []) ++ filterEnabledDataUnits rest := by
  simp [filterEnabledDataUnits]

theorem filterEnabledDataUnits_cons_obj (k : String)
    (nested rest : List (String × JVal)) :
    filterEnabledDataUnits ((k, JVal.obj nested) :: rest) =
      (if (filterEnabledDataUnits nested).length > 0 then
        [(k, JVal.obj (filterEnabledDataUnits nested))] else [])
        ++ filterEnabledDataUnits rest := by
  simp only [filterEnabledDataUnits]
  rw [filterNestedEntries_eq]

theorem filterEnabledDataUnits_cons_str (k s : String)
    (rest : List (String × JVal)) :
    filterEnabledDataUnits ((k, JVal.str s) :: rest) =
      filterEnabledDataUnits rest := by
  simp [filterEnabledDataUnits]

theorem filterEnabledDataUnits_cons_num (k : String) (m : Int)
    (rest : List (String × JVal)) :
    filterEnabledDataUnits ((k, JVal.num m) :: rest) =
      filterEnabledDataUnits rest := by
  simp [filterEnabledDataUnits]

theorem filterEnabledDataUnits_cons_null (k : String)
    (rest : List (String × JVal)) :
    filterEnabledDataUnits ((k, JVal.null) :: rest) =
      filterEnabledDataUnits rest := by
  simp [filterEnabledDataUnits]

theorem filterEnabledDataUnits_idem_aux :
    ∀ (n : Nat) (es : List (String × JVal)), sizeOf es ≤ n →
      filterEnabledDataUnits (filterEnabledDataUnits es) = filterEnabledDataUnits es := by
  intro n
  induction n with
  | zero =>
    intro es h
    cases es with
    | nil => simp [filterEnabledDataUnits_nil]
    | cons p rest => simp at h
  | succ n ih =>
    intro es h
    cases es with
    | nil => simp [filterEnabledDataUnits_nil]
    | cons p rest =>
      obtain ⟨k, v⟩ := p
      have hrest : sizeOf rest ≤ n := by simp at h; omega
      cases v with
      | bool b =>
        cases b with
        | false => simp [filterEnabledDataUnits_cons_bool, ih rest hrest]
        | true => simp [filterEnabledDataUnits_cons_bool, ih rest hrest]
      | obj nested =>
        have hnested : sizeOf nested ≤ n := by simp at h; omega
        rw [filterEnabledDataUnits_cons_obj]
        by_cases hlen : (filterEnabledDataUnits nested).length > 0
        · rw [if_pos hlen]
          simp only [List.singleton_append]
          rw [filterEnabledDataUnits_cons_obj]
          rw [ih nested hnested]
          rw [if_pos hlen]
          simp [ih rest hrest]
        · rw [if_neg hlen]
          simp [ih rest hrest]
      | str s => rw [filterEnabledDataUnits_cons_str]; exact ih rest hrest
      | num m => rw [filterEnabledDataUnits_cons_num]; exact ih rest hrest
      | null => rw [filterEnabledDataUnits_cons_null]; exact ih rest hrest

/-- C3: filtering is idempotent — for every data-units tree (booleans and
arbitrarily nested mappings), filtering an already-filtered tree yields the
same tree. -/
theorem filterEnabledDataUnits_idempotent (es : List (String × JVal)) :
    filterEnabledDataUnits (filterEnabledDataUnits es) = filterEnabledDataUnits es :=
  filterEnabledDataUnits_idem_aux (sizeOf es) es (Nat.le_refl _)

theorem filterEnabledDataUnits_empty_aux :
    ∀ (n : Nat) (es : List (String × JVal)), sizeOf es ≤ n →
      (filterEnabledDataUnits es = [] ↔ hasTrueLeafEntries es = false) := by
  intro n
  induction n with
  | zero =>
    intro es h
    cases es with
    | nil => simp [filterEnabledDataUnits_nil, hasTrueLeafEntries]
    | cons p rest => simp at h
  | succ n ih =>
    intro es h
    cases es with
    | nil => simp [filterEnabledDataUnits_nil, hasTrueLeafEntries]
    | cons p rest =>
      obtain ⟨k, v⟩ := p
      have hrest : sizeOf rest ≤ n := by simp at h; omega
      cases v with
      | bool b =>
        cases b with
        | false =>
          simp only [filterEnabledDataUnits_cons_bool, hasTrueLeafEntries]
          simpa using ih rest hrest
        | true =>
          simp [filterEnabledDataUnits_cons_bool, hasTrueLeafEntries]
      | obj nested =>
        have hnested : sizeOf nested ≤ n := by simp at h; omega
        rw [filterEnabledDataUnits_cons_obj]
        simp only [hasTrueLeafEntries]
        by_cases hlen : (filterEnabledDataUnits nested).length > 0
        · rw [if_pos hlen]
          have : hasTrueLeafEntries nested = true := by
            rcases Bool.eq_false_or_eq_true (hasTrueLeafEntries nested) with ht | hf
            · exact ht
            · exfalso
              have : filterEnabledDataUnits nested = [] := (ih nested hnested).mpr hf
              rw [this] at hlen; simp at hlen
          simp [this]
        · have hnil : filterEnabledDataUnits nested = [] := by
            cases hfe : filterEnabledDataUnits nested with
            | nil => rfl
            | cons a l => exfalso; apply hlen; rw [hfe]; simp
          rw [if_neg hlen]
          have : hasTrueLeafEntries nested = false := (ih nested hnested).mp hnil
          simp only [this, Bool.false_or, List.nil_append]
          exact ih rest hrest
      | str s =>
        rw [filterEnabledDataUnits_cons_str]
        simp only [hasTrueLeafEntries]
        exact ih rest hrest
      | num m =>
        rw [filterEnabledDataUnits_cons_num]
        simp only [hasTrueLeafEntries]
        exact ih rest hrest
      | null =>
        rw [filterEnabledDataUnits_cons_null]
        simp only [hasTrueLeafEntries]
        exact ih rest hrest

/-- C4: for every data-units tree, the filter yields the empty mapping iff
the tree contains no boolean true leaf anywhere; a true leaf at any depth
survives filtering. -/
theorem filterEnabledDataUnits_empty_iff_no_true_leaf (es : List (String × JVal)) :
    filterEnabledDataUnits es = [] ↔ hasTrueLeafEntries es = false :=
  filterEnabledDataUnits_empty_aux (sizeOf es) es (Nat.le_refl _)

theorem getSubstitution_no_dollar (matched before after : List Char) :
    ∀ rep : List Char, Char.ofNat 36 ∉ rep →
      getSubstitution matched before after rep = rep := by
  intro rep
  induction rep with
  | nil => intro _; rfl
  | cons c rest ih =>
    intro h
    have hc : ¬((c == Char.ofNat 36) = true) := by
      simp only [beq_iff_eq]
      intro hc
      exact h (hc ▸ List.mem_cons_self _ _)
    have hrest : Char.ofNat 36 ∉ rest := fun hr => h (List.mem_cons_of_mem _ hr)
    cases rest with
    | nil =>
      simp only [getSubstitution]
      rw [if_neg hc]
    | cons c2 rest2 =>
      simp only [getSubstitution]
      rw [if_neg hc, ih hrest]

theorem replaceFirstAux_of_not_occurs (pat rep : List Char) :
    ∀ (l before : List Char), occursIn pat l = false →
      replaceFirstAux pat rep before l = l := by
  intro l
  induction l with
  | nil => intro before _; rfl
  | cons c cs ih =>
    intro before h
    simp only [occursIn, Bool.or_eq_false_iff] at h
    simp only [replaceFirstAux, h.1, if_neg]
    rw [ih (c :: before) h.2]
    simp [h.1]

theorem replaceFirst_of_not_occurs (s pat rep : String)
    (h : jsIncludes s pat = false) : replaceFirst s pat rep = s := by
  unfold replaceFirst
  rw [replaceFirstAux_of_not_occurs pat.data rep.data s.data [] h]

theorem replaceFirstAux_match_head (pat rep rest before : List Char) (h : pat ≠ []) :
    replaceFirstAux pat rep before (pat ++ rest)
      = getSubstitution pat before.reverse rest rep ++ rest := by
  cases pat with
  | nil => contradiction
  | cons c cs =>
    have hpre : (c :: cs).isPrefixOf (c :: (cs ++ rest)) = true := by
      rw [List.isPrefixOf_iff_prefix, ← List.cons_append]
      exact List.prefix_append _ _
    have hdrop : List.drop (c :: cs).length (c :: (cs ++ rest)) = rest := by
      rw [← List.cons_append]
      exact List.drop_left _ _
    simp [List.cons_append, replaceFirstAux, hpre, hdrop]

theorem replaceFirst_whole (pat rep : String) (h : pat ≠ "")
    (hrep : Char.ofNat 36 ∉ rep.data) :
    replaceFirst pat pat rep = rep := by
  unfold replaceFirst
  have hd : pat.data ≠ [] := by
    intro hnil
    apply h
    cases pat
    simp at hnil
    simp [hnil]
  have h2 := replaceFirstAux_match_head pat.data rep.data [] [] hd
  rw [List.append_nil] at h2
  rw [h2, List.reverse_nil, getSubstitution_no_dollar _ _ _ _ hrep,
      List.append_nil]

/-- C7 counterexample: for the template consisting of the single placeholder
and a context that provides the site as the empty string, the code renders
the literal "all" (JS `context.site || "all"`), not the provided value "". -/
theorem generateArchiveName_empty_site_counterexample :
    generateArchiveName "2024-01-01" "00-00-00" 0 "{site}" (some "") = "all"
      ∧ "all" ≠ ("" : String) :=
  ⟨by decide, by decide⟩

/-- C7 (amended): generateArchiveName replaces only the first occurrence
(not globally) of each placeholder, substituting context.site for the site
placeholder when a non-empty site free of the dollar character is provided
(a falsy, i.e. empty, site value falls back to the literal "all", and a
dollar in the site value undergoes the replacement-string escapes of JS
String.replace, e.g. a site of dollar-ampersand renders the matched
placeholder itself) and the literal "all" when no site is provided, and
leaves every template without recognized placeholders — in particular every
unrecognized placeholder — verbatim without error. -/
theorem generateArchiveName_first_occurrence_spec :
    (∀ (date time : String) (ts : Nat) (site : String), site ≠ "" →
        Char.ofNat 36 ∉ site.data →
        generateArchiveName date time ts "{site}" (some site) = site)
    ∧ (∀ (date time : String) (ts : Nat),
        generateArchiveName date time ts "{site}" none = "all")
    ∧ (∀ (date time : String) (ts : Nat),
        generateArchiveName date time ts "{site}" (some "") = "all")
    ∧ (∀ (date time : String) (ts : Nat) (site : Option String) (tpl : String),
        jsIncludes tpl "{date}" = false → jsIncludes tpl "{time}" = false →
        jsIncludes tpl "{timestamp}" = false → jsIncludes tpl "{site}" = false →
        generateArchiveName date time ts tpl site = tpl)
    ∧ (∀ (date time : String) (ts : Nat),
        generateArchiveName date time ts "{site}{site}" none = "all{site}")
    ∧ (∀ (date time : String) (ts : Nat),
        generateArchiveName date time ts "{site}" (some "$&") = "{site}") := by
  refine ⟨?_, ?_, ?_, ?_, ?_, ?_⟩
  · intro date time ts site hsite hdollar
    show replaceFirst (replaceFirst (replaceFirst
        (replaceFirst "{site}" "{date}" date) "{time}" time)
        "{timestamp}" (toString ts)) "{site}"
        (if site != "" then site else "all") = site
    rw [replaceFirst_of_not_occurs _ _ date (by decide),
        replaceFirst_of_not_occurs _ _ time (by decide),
        replaceFirst_of_not_occurs _ _ (toString ts) (by decide)]
    have hif : (if site != "" then site else "all") = site := by simp [hsite]
    rw [hif, replaceFirst_whole _ _ (by decide) hdollar]
  · intro date time ts
    show replaceFirst (replaceFirst (replaceFirst
        (replaceFirst "{site}" "{date}" date) "{time}" time)
        "{timestamp}" (toString ts)) "{site}" "all" = "all"
    rw [replaceFirst_of_not_occurs _ _ date (by decide),
        replaceFirst_of_not_occurs _ _ time (by decide),
        replaceFirst_of_not_occurs _ _ (toString ts) (by decide)]
    exact replaceFirst_whole _ _ (by decide) (by decide)
  · intro date time ts
    show replaceFirst (replaceFirst (replaceFirst
        (replaceFirst "{site}" "{date}" date) "{time}" time)
        "{timestamp}" (toString ts)) "{site}"
        (if ("" : String) != "" then "" else "all") = "all"
    rw [replaceFirst_of_not_occurs _ _ date (by decide),
        replaceFirst_of_not_occurs _ _ time (by decide),
        replaceFirst_of_not_occurs _ _ (toString ts) (by decide)]
    decide
  · intro date time ts site tpl h1 h2 h3 h4
    cases site with
    | none =>
      show replaceFirst (replaceFirst (replaceFirst
          (replaceFirst tpl "{date}" date) "{time}" time)
          "{timestamp}" (toString ts)) "{site}" "all" = tpl
      rw [replaceFirst_of_not_occurs _ _ date h1,
          replaceFirst_of_not_occurs _ _ time h2,
          replaceFirst_of_not_occurs _ _ (toString ts) h3,
          replaceFirst_of_not_occurs _ _ "all" h4]
    | some s =>
      show replaceFirst (replaceFirst (replaceFirst
          (replaceFirst tpl "{date}" date) "{time}" time)
          "{timestamp}" (toString ts)) "{site}"
          (if s != "" then s else "all") = tpl
      rw [replaceFirst_of_not_occurs _ _ date h1,
          replaceFirst_of_not_occurs _ _ time h2,
          replaceFirst_of_not_occurs _ _ (toString ts) h3,
          replaceFirst_of_not_occurs _ _ _ h4]
  · intro date time ts
    show replaceFirst (replaceFirst (replaceFirst
        (replaceFirst "{site}{site}" "{date}" date) "{time}" time)
        "{timestamp}" (toString ts)) "{site}" "all" = "all{site}"
    rw [replaceFirst_of_not_occurs _ _ date (by decide),
        replaceFirst_of_not_occurs _ _ time (by decide),
        replaceFirst_of_not_occurs _ _ (toString ts) (by decide)]
    decide
  · intro date time ts
    show replaceFirst (replaceFirst (replaceFirst
        (replaceFirst "{site}" "{date}" date) "{time}" time)
        "{timestamp}" (toString ts)) "{site}"
        (if ("$&" : String) != "" then "$&" else "all") = "{site}"
    rw [replaceFirst_of_not_occurs _ _ date (by decide),
        replaceFirst_of_not_occurs _ _ time (by decide),
        replaceFirst_of_not_occurs _ _ (toString ts) (by decide)]
    decide

theorem generateArchiveName_first_occurrence_spec_witness :
    generateArchiveName "2026-10-12" "10-00-00" 1760000000 "{site}" (some "RefArch") = "RefArch"
    ∧ generateArchiveName "2026-10-12" "10-00-00" 1760000000 "{site}" none = "all"
    ∧ generateArchiveName "2026-10-12" "10-00-00" 1760000000 "{foo}" none = "{foo}"
    ∧ generateArchiveName "2026-10-12" "10-00-00" 1760000000 "{site}" (some "$&") = "{site}" :=
  ⟨generateArchiveName_first_occurrence_spec.1 _ _ _ "RefArch" (by decide) (by decide),
   generateArchiveName_first_occurrence_spec.2.1 _ _ _,
   generateArchiveName_first_occurrence_spec.2.2.2.1 _ _ _ none "{foo}"
     (by decide) (by decide) (by decide) (by decide),
   generateArchiveName_first_occurrence_spec.2.2.2.2.2 _ _ _⟩

/-- C5: for every raw configuration containing a dataUnits mapping,
validateConfig accumulates every violation — unknown top-level dataUnits
key, unknown global_data key, unknown per-site key, site value neither
boolean nor object — naming each offending key exactly; with a non-empty
error list it fails carrying the complete list, and with zero violations it
succeeds. -/
theorem validateConfig_collects_all_violations
    (config : JVal) (duEntries : List (String × JVal))
    (hdu : jsGet config "dataUnits" = some (JVal.obj duEntries)) :
    (∀ k ∈ jsKeys (JVal.obj duEntries), k ∉ validDataUnitKeys →
        unknownDataUnitsKeyMsg k ∈ validateConfigErrors config)
    ∧ (∀ gd, jsGet (JVal.obj duEntries) "global_data" = some gd →
        jsTruthy gd = true →
        ∀ k ∈ jsKeys gd, k ∉ globalDataOptions →
          unknownGlobalDataMsg k ∈ validateConfigErrors config)
    ∧ (∀ s, jsGet (JVal.obj duEntries) "sites" = some s →
        jsTruthy s = true →
        ∀ p ∈ jsEntries s,
          (∀ es, p.2 = JVal.obj es →
            ∀ k ∈ es.map Prod.fst, k ∉ siteDataOptions →
              unknownSiteDataMsg p.1 k ∈ validateConfigErrors config)
          ∧ ((∀ b, p.2 ≠ JVal.bool b) → (∀ es, p.2 ≠ JVal.obj es) →
              invalidSiteConfigMsg p.1 ∈ validateConfigErrors config))
    ∧ (validateConfigErrors config ≠ [] →
        validateConfig config = Except.error ("Configuration validation failed:\n"
          ++ String.intercalate "\n"
              ((validateConfigErrors config).map (fun e => "  - " ++ e))))
    ∧ (validateConfigErrors config = [] →
        validateConfig config = Except.ok config) := by
  have hE : validateConfigErrors config =
      unknownDataUnitsKeyErrors (JVal.obj duEntries)
        ++ globalDataErrors (JVal.obj duEntries)
        ++ sitesErrors (JVal.obj duEntries) := by
    simp [validateConfigErrors, hdu, jsTruthy]
  refine ⟨?_, ?_, ?_, ?_, ?_⟩
  · intro k hk hnot
    rw [hE]
    apply List.mem_append_left
    apply List.mem_append_left
    apply List.mem_map_of_mem
    exact List.mem_filter.mpr ⟨hk, by simpa using hnot⟩
  · intro gd hgd htr k hk hnot
    rw [hE]
    apply List.mem_append_left
    apply List.mem_append_right
    simp only [globalDataErrors, hgd, htr, if_true]
    apply List.mem_map_of_mem
    exact List.mem_filter.mpr ⟨hk, by simpa using hnot⟩
  · intro s hs htr p hp
    constructor
    · intro es hes k hk hnot
      rw [hE]
      apply List.mem_append_right
      simp only [sitesErrors, hs, htr, if_true]
      apply List.mem_flatMap.mpr
      refine ⟨p, hp, ?_⟩
      unfold siteEntryErrors
      rw [hes]
      apply List.mem_map_of_mem
      exact List.mem_filter.mpr ⟨hk, by simpa using hnot⟩
    · intro hb ho
      rw [hE]
      apply List.mem_append_right
      simp only [sitesErrors, hs, htr, if_true]
      apply List.mem_flatMap.mpr
      refine ⟨p, hp, ?_⟩
      unfold siteEntryErrors
      cases hv : p.2 with
      | bool b => exact absurd hv (hb b)
      | obj es => exact absurd hv (ho es)
      | str t => simp
      | num m => simp
      | null => simp
  · intro hne
    unfold validateConfig
    rw [if_pos (by simpa using List.length_pos.mpr hne)]
  · intro hnil
    unfold validateConfig
    rw [hnil]
    simp

theorem validateConfig_collects_all_violations_witness :
    unknownDataUnitsKeyMsg "bogus" ∈ validateConfigErrors sampleInvalidConfig
    ∧ unknownGlobalDataMsg "nope" ∈ validateConfigErrors sampleInvalidConfig
    ∧ unknownSiteDataMsg "T" "weird" ∈ validateConfigErrors sampleInvalidConfig
    ∧ invalidSiteConfigMsg "S" ∈ validateConfigErrors sampleInvalidConfig
    ∧ validateConfig sampleInvalidConfig =
        Except.error ("Configuration validation failed:\n"
          ++ String.intercalate "\n"
              ((validateConfigErrors sampleInvalidConfig).map (fun e => "  - " ++ e))) := by
  obtain ⟨h1, h2, h3, h4, h5⟩ :=
    validateConfig_collects_all_violations sampleInvalidConfig sampleInvalidDataUnits rfl
  refine ⟨?_, ?_, ?_, ?_, ?_⟩
  · exact h1 "bogus" (by decide) (by decide)
  · exact h2 (JVal.obj [("nope", JVal.bool true)]) rfl rfl "nope" (by decide) (by decide)
  · exact (h3 (JVal.obj [("S", JVal.str "x"), ("T", JVal.obj [("weird", JVal.bool true)])])
      rfl rfl ("T", JVal.obj [("weird", JVal.bool true)])
      (List.mem_cons_of_mem _ (List.mem_cons_self _ _))).1
      [("weird", JVal.bool true)] rfl "weird" (by decide) (by decide)
  · exact (h3 (JVal.obj [("S", JVal.str "x"), ("T", JVal.obj [("weird", JVal.bool true)])])
      rfl rfl ("S", JVal.str "x") (List.mem_cons_self _ _)).2
      (fun b h => JVal.noConfusion h) (fun es h => JVal.noConfusion h)
  · exact h4 (by decide)

/-- C8: a raw configuration that validates with zero accumulated errors is
returned unchanged — validateConfig hands back the very input value, with
no field mutated, removed or default-filled. -/
theorem validateConfig_ok_returns_input (config : JVal)
    (h : validateConfigErrors config = []) :
    validateConfig config = Except.ok config := by
  unfold validateConfig
  rw [h]
  simp

theorem validateConfig_ok_returns_input_witness :
    validateConfig sampleValidConfig = Except.ok sampleValidConfig :=
  validateConfig_ok_returns_input sampleValidConfig (by decide)

theorem mem_setAdd (s : List String) (k a : String) :
    a ∈ setAdd s k ↔ a ∈ s ∨ a = k := by
  unfold setAdd
  split
  · rename_i h
    constructor
    · exact Or.inl
    · rintro (h' | rfl)
      · exact h'
      · simpa using h
  · simp

theorem nodup_setAdd (s : List String) (k : String) (h : s.Nodup) :
    (setAdd s k).Nodup := by
  unfold setAdd
  split
  · exact h
  · rename_i hc
    refine List.Nodup.append h (List.nodup_singleton k) ?_
    intro a ha ha'
    rw [List.mem_singleton] at ha'
    subst ha'
    exact hc (by simpa using ha)

theorem mem_foldl_siteDataStep :
    ∀ (es : List (String × JVal)) (acc : List String) (a : String),
      a ∈ es.foldl siteDataStep acc ↔ a ∈ acc ∨ (a, JVal.bool true) ∈ es := by
  intro es
  induction es with
  | nil => simp
  | cons p rest ih =>
    intro acc a
    obtain ⟨k, v⟩ := p
    rw [List.foldl_cons]
    cases v with
    | bool b =>
      cases b with
      | true =>
        rw [ih]
        simp [siteDataStep, mem_setAdd, Prod.ext_iff]
        tauto
      | false =>
        rw [ih]
        simp [siteDataStep, Prod.ext_iff]
    | obj es2 =>
      rw [ih]
      simp [siteDataStep, Prod.ext_iff]
    | str s =>
      rw [ih]
      simp [siteDataStep, Prod.ext_iff]
    | num n =>
      rw [ih]
      simp [siteDataStep, Prod.ext_iff]
    | null =>
      rw [ih]
      simp [siteDataStep, Prod.ext_iff]

theorem nodup_foldl_siteDataStep :
    ∀ (es : List (String × JVal)) (acc : List String), acc.Nodup →
      (es.foldl siteDataStep acc).Nodup := by
  intro es
  induction es with
  | nil => intro acc h; simpa
  | cons p rest ih =>
    intro acc h
    rw [List.foldl_cons]
    apply ih
    obtain ⟨k, v⟩ := p
    cases v with
    | bool b =>
      cases b with
      | true => exact nodup_setAdd _ _ h
      | false => exact h
    | obj es2 => exact h
    | str s => exact h
    | num n => exact h
    | null => exact h

theorem collectSiteData_some :
    ∀ (vs : List JVal) (acc : List String),
      (∀ v ∈ vs, v ≠ JVal.null) →
      ∃ u, collectSiteData vs acc = some u
        ∧ (∀ a, a ∈ u ↔ a ∈ acc ∨ ∃ es, JVal.obj es ∈ vs ∧ (a, JVal.bool true) ∈ es)
        ∧ (acc.Nodup → u.Nodup) := by
  intro vs
  induction vs with
  | nil =>
    intro acc _
    exact ⟨acc, rfl, by simp, fun h => h⟩
  | cons v rest ih =>
    intro acc hnn
    have hrest : ∀ w ∈ rest, w ≠ JVal.null :=
      fun w hw => hnn w (List.mem_cons_of_mem _ hw)
    cases v with
    | null => exact absurd rfl (hnn _ (List.mem_cons_self _ _))
    | obj es =>
      obtain ⟨u, hu, hmem, hnd⟩ := ih (es.foldl siteDataStep acc) hrest
      refine ⟨u, by simpa [collectSiteData] using hu, ?_, ?_⟩
      · intro a
        rw [hmem a, mem_foldl_siteDataStep]
        constructor
        · rintro ((h | h) | ⟨es2, hes2, hmem2⟩)
          · exact Or.inl h
          · exact Or.inr ⟨es, List.mem_cons_self _ _, h⟩
          · exact Or.inr ⟨es2, List.mem_cons_of_mem _ hes2, hmem2⟩
        · rintro (h | ⟨es2, hes2, hmem2⟩)
          · exact Or.inl (Or.inl h)
          · rcases List.mem_cons.mp hes2 with heq | hes2'
            · cases heq
              exact Or.inl (Or.inr hmem2)
            · exact Or.inr ⟨es2, hes2', hmem2⟩
      · intro hnda
        exact hnd (nodup_foldl_siteDataStep es acc hnda)
    | bool b =>
      obtain ⟨u, hu, hmem, hnd⟩ := ih acc hrest
      refine ⟨u, by simpa [collectSiteData] using hu, ?_, hnd⟩
      intro a
      rw [hmem a]
      constructor
      · rintro (h | ⟨es2, hes2, hmem2⟩)
        · exact Or.inl h
        · exact Or.inr ⟨es2, List.mem_cons_of_mem _ hes2, hmem2⟩
      · rintro (h | ⟨es2, hes2, hmem2⟩)
        · exact Or.inl h
        · rcases List.mem_cons.mp hes2 with heq | hes2'
          · exact absurd heq (by simp)
          · exact Or.inr ⟨es2, hes2', hmem2⟩
    | str s =>
      obtain ⟨u, hu, hmem, hnd⟩ := ih acc hrest
      refine ⟨u, by simpa [collectSiteData] using hu, ?_, hnd⟩
      intro a
      rw [hmem a]
      constructor
      · rintro (h | ⟨es2, hes2, hmem2⟩)
        · exact Or.inl h
        · exact Or.inr ⟨es2, List.mem_cons_of_mem _ hes2, hmem2⟩
      · rintro (h | ⟨es2, hes2, hmem2⟩)
        · exact Or.inl h
        · rcases List.mem_cons.mp hes2 with heq | hes2'
          · exact absurd heq (by simp)
          · exact Or.inr ⟨es2, hes2', hmem2⟩
    | num n =>
      obtain ⟨u, hu, hmem, hnd⟩ := ih acc hrest
      refine ⟨u, by simpa [collectSiteData] using hu, ?_, hnd⟩
      intro a
      rw [hmem a]
      constructor
      · rintro (h | ⟨es2, hes2, hmem2⟩)
        · exact Or.inl h
        · exact Or.inr ⟨es2, List.mem_cons_of_mem _ hes2, hmem2⟩
      · rintro (h | ⟨es2, hes2, hmem2⟩)
        · exact Or.inl h
        · rcases List.mem_cons.mp hes2 with heq | hes2'
          · exact absurd heq (by simp)
          · exact Or.inr ⟨es2, hes2', hmem2⟩

theorem collectSiteData_skip_bool :
    ∀ (vs1 : List JVal) (b : Bool) (vs2 : List JVal) (acc : List String),
      collectSiteData (vs1 ++ JVal.bool b :: vs2) acc
        = collectSiteData (vs1 ++ vs2) acc := by
  intro vs1
  induction vs1 with
  | nil => intro b vs2 acc; simp [collectSiteData]
  | cons v rest ih =>
    intro b vs2 acc
    cases v with
    | null => simp [collectSiteData]
    | obj es => simp only [List.cons_append, collectSiteData]; exact ih _ _ _
    | bool b2 => simp only [List.cons_append, collectSiteData]; exact ih _ _ _
    | str s => simp only [List.cons_append, collectSiteData]; exact ih _ _ _
    | num n => simp only [List.cons_append, collectSiteData]; exact ih _ _ _

theorem buildExportArgs_eq (resolve : String → String) (du : JVal)
    (o : ExportOptions) :
    buildExportArgs resolve du o =
      (siteArgs du).map (fun sa =>
        ["job", "export", "--output", resolve o.outputPath,
         "--timeout", toString o.timeout]
        ++ (if o.keepArchive then ["--keep-archive"] else [])
        ++ ["--zip-only"] ++ globalDataArgs du ++ sa ++ inventoryArgs du) := by
  obtain ⟨op, ka, t, z⟩ := o
  unfold buildExportArgs
  cases hsa : siteArgs du with
  | none => simp
  | some sa => cases ka <;> simp

theorem siteArgs_obj (du : JVal) (ses : List (String × JVal))
    (hsites : jsGet du "sites" = some (JVal.obj ses)) (hne : ses ≠ [])
    (hnonull : ∀ p ∈ ses, p.2 ≠ JVal.null) :
    ∃ u, collectSiteData (ses.map Prod.snd) [] = some u
      ∧ siteArgs du =
          some (["--site", String.intercalate "," (ses.map Prod.fst)]
            ++ (if u.length > 0 then
                  ["--site-data", String.intercalate "," u] else []))
      ∧ u.Nodup
      ∧ (∀ a, a ∈ u ↔ ∃ p ∈ ses, ∃ es, p.2 = JVal.obj es ∧ (a, JVal.bool true) ∈ es) := by
  have hvals : ∀ v ∈ ses.map Prod.snd, v ≠ JVal.null := by
    intro v hv
    rw [List.mem_map] at hv
    obtain ⟨p, hp, rfl⟩ := hv
    exact hnonull p hp
  obtain ⟨u, hu, hmem, hnd⟩ := collectSiteData_some (ses.map Prod.snd) [] hvals
  have hcond : jsTruthy (JVal.obj ses) = true ∧ (jsKeys (JVal.obj ses)).length > 0 := by
    constructor
    · rfl
    · simpa [jsKeys] using List.length_pos.mpr hne
  refine ⟨u, hu, ?_, hnd List.nodup_nil, ?_⟩
  · simp only [siteArgs, hsites]
    rw [if_pos hcond]
    have hv : jsValues (JVal.obj ses) = ses.map Prod.snd := by
      simp [jsValues, jsEntries]
    rw [hv, hu]
    simp [jsKeys]
  · intro a
    rw [hmem a]
    simp only [List.mem_nil_iff, false_or]
    constructor
    · rintro ⟨es, hes, hmem2⟩
      rw [List.mem_map] at hes
      obtain ⟨p, hp, hpe⟩ := hes
      exact ⟨p, hp, es, hpe, hmem2⟩
    · rintro ⟨p, hp, es, hpe, hmem2⟩
      exact ⟨es, List.mem_map.mpr ⟨p, hp, hpe⟩, hmem2⟩

/-- C1: for every filtered data-units tree whose sites mapping is non-empty
(site values are booleans or objects, never null, in a filtered tree),
buildExportArgs emits a single site flag valued with the comma-joined list
of all site identifiers, immediately followed (when the union is non-empty)
by a single site-data flag valued with the comma-joined deduplicated union
of every enabled data key across all selected sites — one shared flag pair,
never per-site flag sets. -/
theorem buildExportArgs_union_semantics
    (resolve : String → String) (du : JVal) (opts : ExportOptions)
    (ses : List (String × JVal))
    (hsites : jsGet du "sites" = some (JVal.obj ses))
    (hne : ses ≠ [])
    (hnonull : ∀ p ∈ ses, p.2 ≠ JVal.null) :
    ∃ u, collectSiteData (ses.map Prod.snd) [] = some u
      ∧ buildExportArgs resolve du opts =
          some (["job", "export", "--output", resolve opts.outputPath,
                 "--timeout", toString opts.timeout]
            ++ (if opts.keepArchive then ["--keep-archive"] else [])
            ++ ["--zip-only"]
            ++ globalDataArgs du
            ++ ["--site", String.intercalate "," (ses.map Prod.fst)]
            ++ (if u.length > 0 then
                  ["--site-data", String.intercalate "," u] else [])
            ++ inventoryArgs du)
      ∧ u.Nodup
      ∧ (∀ a, a ∈ u ↔ ∃ p ∈ ses, ∃ es, p.2 = JVal.obj es ∧ (a, JVal.bool true) ∈ es) := by
  obtain ⟨u, hu, hsa, hnd, hmem⟩ := siteArgs_obj du ses hsites hne hnonull
  refine ⟨u, hu, ?_, hnd, hmem⟩
  rw [buildExportArgs_eq, hsa]
  simp [List.append_assoc]

theorem buildExportArgs_union_semantics_witness :
    buildExportArgs (fun s => s)
      (JVal.obj [("sites", JVal.obj
        [("A", JVal.obj [("content", JVal.bool true)]),
         ("B", JVal.obj [("coupons", JVal.bool true)])])])
      ⟨"./exports", false, 600, false⟩
      = some ["job", "export", "--output", "./exports", "--timeout", "600",
              "--zip-only", "--site", "A,B", "--site-data", "content,coupons"] := by
  obtain ⟨u, hu, hargs, _, _⟩ :=
    buildExportArgs_union_semantics (fun s => s)
      (JVal.obj [("sites", JVal.obj
        [("A", JVal.obj [("content", JVal.bool true)]),
         ("B", JVal.obj [("coupons", JVal.bool true)])])])
      ⟨"./exports", false, 600, false⟩
      [("A", JVal.obj [("content", JVal.bool true)]),
       ("B", JVal.obj [("coupons", JVal.bool true)])]
      rfl (by simp)
      (by
        intro p hp
        rcases List.mem_cons.mp hp with rfl | hp2
        · simp
        · rcases List.mem_cons.mp hp2 with rfl | hp3
          · simp
          · cases hp3)
  have hcomp : collectSiteData
      ([("A", JVal.obj [("content", JVal.bool true)]),
        ("B", JVal.obj [("coupons", JVal.bool true)])].map Prod.snd) []
      = some ["content", "coupons"] := rfl
  have hueq : u = ["content", "coupons"] :=
    (Option.some.inj (hcomp.symm.trans hu)).symm
  subst hueq
  exact hargs.trans (by decide)

/-- C2: every argument list compiled by buildExportArgs begins, in this
exact order, with the verb pair, the output flag with the resolved output
path, the timeout flag with the timeout rendered in decimal, the
keep-archive flag iff keepArchive is set, and the zip-only flag
unconditionally (the options' zipOnly field is never read), before any
data-selection flags. -/
theorem buildExportArgs_header_order
    (resolve : String → String) (du : JVal) (opts : ExportOptions)
    (args : List String)
    (h : buildExportArgs resolve du opts = some args) :
    ∃ sa, siteArgs du = some sa ∧
      args = ["job", "export", "--output", resolve opts.outputPath,
              "--timeout", toString opts.timeout]
        ++ (if opts.keepArchive then ["--keep-archive"] else [])
        ++ ["--zip-only"]
        ++ (globalDataArgs du ++ sa ++ inventoryArgs du) := by
  rw [buildExportArgs_eq] at h
  cases hsa : siteArgs du with
  | none => rw [hsa] at h; simp at h
  | some sa =>
    rw [hsa] at h
    refine ⟨sa, rfl, ?_⟩
    rw [Option.map_some'] at h
    rw [← Option.some.inj h]
    simp [List.append_assoc]

theorem buildExportArgs_header_order_witness :
    ∃ sa, siteArgs (JVal.obj []) = some sa ∧
      ["job", "export", "--output", "/srv/exports", "--timeout", "45",
       "--keep-archive", "--zip-only"]
        = ["job", "export", "--output",
           (fun s => s) "/srv/exports", "--timeout",
           toString (45 : Nat)]
          ++ (if (⟨"/srv/exports", true, 45, false⟩ : ExportOptions).keepArchive
              then ["--keep-archive"] else [])
          ++ ["--zip-only"]
          ++ (globalDataArgs (JVal.obj []) ++ sa ++ inventoryArgs (JVal.obj [])) :=
  buildExportArgs_header_order (fun s => s) (JVal.obj [])
    ⟨"/srv/exports", true, 45, false⟩
    ["job", "export", "--output", "/srv/exports", "--timeout", "45",
     "--keep-archive", "--zip-only"]
    (by decide)

theorem find?_skip_middle {α : Type} (p : α → Bool) (x : α) (hx : p x = false) :
    ∀ l1 l2 : List α, List.find? p (l1 ++ x :: l2) = List.find? p (l1 ++ l2) := by
  have hnx : ¬(p x = true) := by simp [hx]
  intro l1
  induction l1 with
  | nil =>
    intro l2
    simp only [List.nil_append]
    rw [List.find?_cons_of_neg _ hnx]
  | cons a l1 ih =>
    intro l2
    simp only [List.cons_append]
    cases hpa : p a with
    | true =>
      rw [List.find?_cons_of_pos _ hpa, List.find?_cons_of_pos _ hpa]
    | false =>
      have hna : ¬(p a = true) := by simp [hpa]
      rw [List.find?_cons_of_neg _ hna, List.find?_cons_of_neg _ hna, ih]

theorem jsGet_skip_entry (k k2 : String) (v : JVal)
    (l1 l2 : List (String × JVal)) (h : (k == k2) = false) :
    jsGet (JVal.obj (l1 ++ (k, v) :: l2)) k2 = jsGet (JVal.obj (l1 ++ l2)) k2 := by
  simp only [jsGet]
  rw [find?_skip_middle (fun p => p.1 == k2) (k, v) h l1 l2]

/-- C9: buildExportArgs never reads the customer_lists entry: inserting a
customer_lists entry (of any value) at any position of the tree — and hence
removing one — leaves the compiled argument list unchanged, and a tree
whose only key is a customer_lists mapping compiles to the bare header with
no data-selection flag at all. -/
theorem buildExportArgs_ignores_customer_lists :
    (∀ (resolve : String → String) (opts : ExportOptions)
        (l1 l2 : List (String × JVal)) (v : JVal),
        buildExportArgs resolve (JVal.obj (l1 ++ ("customer_lists", v) :: l2)) opts
          = buildExportArgs resolve (JVal.obj (l1 ++ l2)) opts)
    ∧ (∀ (resolve : String → String) (opts : ExportOptions)
        (cls : List (String × JVal)),
        buildExportArgs resolve (JVal.obj [("customer_lists", JVal.obj cls)]) opts
          = some (["job", "export", "--output", resolve opts.outputPath,
                   "--timeout", toString opts.timeout]
              ++ (if opts.keepArchive then ["--keep-archive"] else [])
              ++ ["--zip-only"])) := by
  constructor
  · intro resolve opts l1 l2 v
    have hg : globalDataArgs (JVal.obj (l1 ++ ("customer_lists", v) :: l2))
        = globalDataArgs (JVal.obj (l1 ++ l2)) := by
      unfold globalDataArgs
      rw [jsGet_skip_entry "customer_lists" "global_data" v l1 l2 (by decide)]
    have hs : siteArgs (JVal.obj (l1 ++ ("customer_lists", v) :: l2))
        = siteArgs (JVal.obj (l1 ++ l2)) := by
      unfold siteArgs
      rw [jsGet_skip_entry "customer_lists" "sites" v l1 l2 (by decide)]
    have hi : inventoryArgs (JVal.obj (l1 ++ ("customer_lists", v) :: l2))
        = inventoryArgs (JVal.obj (l1 ++ l2)) := by
      unfold inventoryArgs
      rw [jsGet_skip_entry "customer_lists" "inventory_lists" v l1 l2 (by decide)]
    rw [buildExportArgs_eq, buildExportArgs_eq, hg, hs, hi]
  · intro resolve opts cls
    have hg : globalDataArgs (JVal.obj [("customer_lists", JVal.obj cls)]) = [] := by
      unfold globalDataArgs
      rw [show jsGet (JVal.obj [("customer_lists", JVal.obj cls)]) "global_data"
            = none from by simp [jsGet, List.find?]]
    have hs : siteArgs (JVal.obj [("customer_lists", JVal.obj cls)]) = some [] := by
      unfold siteArgs
      rw [show jsGet (JVal.obj [("customer_lists", JVal.obj cls)]) "sites"
            = none from by simp [jsGet, List.find?]]
    have hi : inventoryArgs (JVal.obj [("customer_lists", JVal.obj cls)]) = [] := by
      unfold inventoryArgs
      rw [show jsGet (JVal.obj [("customer_lists", JVal.obj cls)]) "inventory_lists"
            = none from by simp [jsGet, List.find?]]
    rw [buildExportArgs_eq, hg, hs, hi]
    simp

/-- C10: in a filtered tree a site entry whose value is the boolean true
("all data" shorthand) contributes its identifier to the site flag but no
keys to the site-data union: the collected union is the same with the entry
removed; in particular a sites mapping of exactly one boolean-true site
compiles with a site flag and no site-data flag. -/
theorem buildExportArgs_boolean_site
    (resolve : String → String) (du : JVal) (opts : ExportOptions)
    (l1 l2 : List (String × JVal)) (k : String)
    (hsites : jsGet du "sites" = some (JVal.obj (l1 ++ (k, JVal.bool true) :: l2)))
    (hnonull : ∀ p ∈ l1 ++ (k, JVal.bool true) :: l2, p.2 ≠ JVal.null) :
    ∃ u, collectSiteData ((l1 ++ (k, JVal.bool true) :: l2).map Prod.snd) [] = some u
      ∧ buildExportArgs resolve du opts =
          some (["job", "export", "--output", resolve opts.outputPath,
                 "--timeout", toString opts.timeout]
            ++ (if opts.keepArchive then ["--keep-archive"] else [])
            ++ ["--zip-only"]
            ++ globalDataArgs du
            ++ ["--site",
                String.intercalate "," ((l1 ++ (k, JVal.bool true) :: l2).map Prod.fst)]
            ++ (if u.length > 0 then
                  ["--site-data", String.intercalate "," u] else [])
            ++ inventoryArgs du)
      ∧ k ∈ (l1 ++ (k, JVal.bool true) :: l2).map Prod.fst
      ∧ collectSiteData ((l1 ++ l2).map Prod.snd) [] = some u := by
  have hne : l1 ++ (k, JVal.bool true) :: l2 ≠ [] := by simp
  obtain ⟨u, hu, hsa, _, _⟩ := siteArgs_obj du _ hsites hne hnonull
  refine ⟨u, hu, ?_, ?_, ?_⟩
  · rw [buildExportArgs_eq, hsa]
    simp [List.append_assoc]
  · exact List.mem_map.mpr ⟨(k, JVal.bool true), by simp, rfl⟩
  · have hsplit : (l1 ++ (k, JVal.bool true) :: l2).map Prod.snd
        = l1.map Prod.snd ++ JVal.bool true :: l2.map Prod.snd := by simp
    rw [hsplit, collectSiteData_skip_bool] at hu
    rw [show (l1 ++ l2).map Prod.snd = l1.map Prod.snd ++ l2.map Prod.snd
          from by simp]
    exact hu

theorem buildExportArgs_boolean_site_witness :
    buildExportArgs (fun s => s)
      (JVal.obj [("sites", JVal.obj [("A", JVal.bool true)])])
      ⟨"./exports", false, 600, false⟩
      = some ["job", "export", "--output", "./exports", "--timeout", "600",
              "--zip-only", "--site", "A"] := by
  obtain ⟨u, hu, hargs, _, _⟩ :=
    buildExportArgs_boolean_site (fun s => s)
      (JVal.obj [("sites", JVal.obj [("A", JVal.bool true)])])
      ⟨"./exports", false, 600, false⟩
      [] [] "A" rfl
      (by
        intro p hp
        rcases List.mem_cons.mp hp with rfl | hp2
        · simp
        · cases hp2)
  have hcomp : collectSiteData
      ((([] : List (String × JVal)) ++ ("A", JVal.bool true) :: []).map Prod.snd) []
      = some [] := rfl
  have hueq : u = [] := (Option.some.inj (hcomp.symm.trans hu)).symm
  subst hueq
  exact hargs.trans (by decide)

/-- C6 counterexample: with exit code 1, stdout "x" (non-empty, not valid
JSON) and stderr containing the exception marker, the marker occurs in the
combined stdout-and-stderr output, yet the failure is classified
generically: the code only examines stdout when stdout is non-empty and
never the concatenation of both streams. -/
theorem executeSiteExport_combined_output_counterexample :
    jsIncludes ("x" ++ "JobAlreadyRunningException") "JobAlreadyRunningException" = true
    ∧ exportResult (fun _ => none) 1 "x" "JobAlreadyRunningException"
        ≠ some ExportFailure.jobAlreadyRunning := by
  constructor
  · decide
  · intro h
    have heval : exportResult (fun _ => none) 1 "x" "JobAlreadyRunningException"
        = some (ExportFailure.exportError (JVal.str "Export failed")) := rfl
    rw [heval] at h
    exact ExportFailure.noConfusion (Option.some.inj h)

/-- C6 (amended): when the export subprocess exits non-zero, a literal
substring match for JobAlreadyRunningException anywhere in the scanned
output — stdout when stdout is non-empty, otherwise stderr — causes the
distinguished job-already-running failure, and this check takes precedence
over the generic newline-delimited-JSON log scan: the classification is
job-already-running for every possible JSON-parser outcome. -/
theorem executeSiteExport_jobAlreadyRunning_precedence
    (jsonParse : String → Option JVal) (code : Int) (stdout stderr : String)
    (hcode : code ≠ 0)
    (hmatch : jsIncludes (if stdout != "" then stdout else stderr)
        "JobAlreadyRunningException" = true) :
    exportResult jsonParse code stdout stderr
      = some ExportFailure.jobAlreadyRunning := by
  unfold exportResult
  rw [if_pos (show (code != 0) = true from by simpa [bne_iff_ne] using hcode)]
  unfold classifyFailure
  by_cases hso : stdout = ""
  · subst hso
    rw [if_neg (by decide : ¬ ((("" : String) != "") = true))] at hmatch
    rw [if_neg (by decide : ¬ ((("" : String) != "") = true))]
    by_cases hse : stderr = ""
    · subst hse
      exact absurd hmatch (by decide)
    · have h2 : (stderr != "") = true := by simpa [bne_iff_ne] using hse
      rw [if_pos h2, if_pos hmatch]
  · have h1 : (stdout != "") = true := by simpa [bne_iff_ne] using hso
    rw [if_pos h1] at hmatch
    rw [if_pos h1, if_pos hmatch]

theorem executeSiteExport_jobAlreadyRunning_precedence_witness :
    exportResult (fun _ => none) 1
      "ERROR JobAlreadyRunningException: an export job is already running" ""
      = some ExportFailure.jobAlreadyRunning :=
  executeSiteExport_jobAlreadyRunning_precedence (fun _ => none) 1
    "ERROR JobAlreadyRunningException: an export job is already running" ""
    (by decide) (by decide)
